import Mathlib

/-!
Verification development for the configuration-resolution pipeline of
`sgrep_lint/config_resolver.py` (repository sylvestre/sgrep).

The Python source is shallowly embedded: paths are lists of components
(mirroring `pathlib.Path.parts`), the filesystem is a finite table of
paths to nodes, the YAML loader is an explicit parameter classifying its
outcome, and process-level control flow (`print_error_exit`, uncaught
exceptions) is an explicit `Outcome` type.  String primitives used by the
source (`str.startswith`, the `in` substring test, `str.replace`,
`str.splitlines`, `PurePath.suffix`) are re-implemented on character
lists so that every definition reduces in the kernel.
-/

namespace Sgrep

/-! ## String primitives (Python semantics, on `List Char`) -/

/-- Character-list prefix test (Python `str.startswith`, core of `in`). -/
def isPrefixOfCL : List Char → List Char → Bool
  | [], _ => true
  | _ :: _, [] => false
  | a :: as, b :: bs => a == b && isPrefixOfCL as bs

/-- Substring containment on character lists: Python `needle in haystack`. -/
def containsCL (needle : List Char) : List Char → Bool
  | [] => isPrefixOfCL needle []
  | c :: cs => isPrefixOfCL needle (c :: cs) || containsCL needle cs

/-- Python `s.startswith(pre)`. -/
def strStartsWith (s pre : String) : Bool := isPrefixOfCL pre.data s.data

/-- Python `pattern in s` (substring containment). -/
def strContains (s pattern : String) : Bool := containsCL pattern.data s.data

/-- Fuel-based worker for `str.replace`: replaces each leftmost occurrence
of `needle` and resumes after the replacement (fuel only bounds the number
of steps; `fuel = length of the haystack` always suffices). -/
def replaceFuel (needle repl : List Char) : Nat → List Char → List Char
  | 0, cs => cs
  | _ + 1, [] => []
  | fuel + 1, c :: cs =>
    if needle.length > 0 && isPrefixOfCL needle (c :: cs) then
      repl ++ replaceFuel needle repl fuel ((c :: cs).drop needle.length)
    else
      c :: replaceFuel needle repl fuel cs

/-- Python `s.replace(old, new)`: every occurrence of `old` is replaced.
(The Python corner case of an empty `old` is never exercised by the
source: the strings substituted are path renditions, never empty; with an
empty `old` this model is the identity.) -/
def pyReplace (s old new : String) : String :=
  (replaceFuel old.data new.data s.data.length s.data).asString

/-- Split a character list at newline characters, keeping every piece
(including a trailing empty piece after a final newline). -/
def splitCL : List Char → List (List Char)
  | [] => [[]]
  | c :: cs =>
    if c == '\n' then [] :: splitCL cs
    else
      match splitCL cs with
      | p :: ps => (c :: p) :: ps
      | [] => [[c]]

/-- Drop a final empty piece, as Python `str.splitlines` does for a string
that ends in a line terminator. -/
def dropTrailingEmpty (ps : List (List Char)) : List (List Char) :=
  match ps.reverse with
  | [] => []
  | last :: rest => if last.isEmpty then rest.reverse else ps

/-- Python `s.splitlines()`, restricted to `\n` terminators (the only line
break occurring in the diagnostics the source indents). -/
def splitlines (s : String) : List String :=
  if s.data.isEmpty then []
  else (dropTrailingEmpty (splitCL s.data)).map List.asString

/-- Source `indent(msg)`: prefix every line of `msg` with a tab and rejoin
with newlines. -/
def indent (msg : String) : String :=
  String.intercalate "\n" ((splitlines msg).map (fun line => "\t" ++ line))

/-- Rendition of a path (list of components) as a string, mirroring
`str(Path(...))` for relative paths; the empty list is `Path(".")`. -/
def strOfPath (p : List String) : String :=
  match p with
  | [] => "."
  | _ => String.intercalate "/" p

/-- Python `PurePath.suffix` of a single name: the part from the last dot
on, unless the last dot is the first or the final character. -/
def nameSuffix (name : String) : String :=
  let cs := name.data
  match cs.reverse.findIdx? (fun c => c == '.') with
  | none => ""
  | some j =>
    let i := cs.length - 1 - j
    if 0 < i ∧ i < cs.length - 1 then (cs.drop i).asString else ""

/-- Python `Path.suffix`: suffix of the final path component. -/
def pathSuffix (p : List String) : String :=
  match p.getLast? with
  | none => ""
  | some name => nameSuffix name

/-! ## Constants of the source

`constants.py` is not under `src/`; the constants below that come from it
are modelled from the spec. -/

/-- Modelled from the spec: `constants.DEFAULT_CONFIG_FILE` is not under
`src/`; the spec's concrete scenario names the default single file
`sgrep.yml`. -/
def DEFAULT_CONFIG_FILE : String := "sgrep.yml"

/-- Modelled from the spec: `constants.DEFAULT_CONFIG_FOLDER` is not under
`src/`; the spec shows the marker-named directory as `.sgrep/`. -/
def DEFAULT_CONFIG_FOLDER : String := ".sgrep"

/-- Modelled from the spec: `constants.DEFAULT_SGREP_CONFIG_NAME` is not
under `src/`; it is the config-marker name whose presence exempts a hidden
directory from exclusion (the spec keeps `.sgrep/` although hidden). -/
def DEFAULT_SGREP_CONFIG_NAME : String := "sgrep"

/-- Modelled from the spec: `constants.YML_EXTENSIONS` is not under
`src/`; the spec lists the recognized extensions `.yml`, `.yaml`. -/
def YML_EXTENSIONS : List String := [".yml", ".yaml"]

/-- Successful HTTP status (`requests.codes.ok`). -/
def HTTP_OK : Nat := 200

/-! ## Hidden-directory exclusion rule -/

/-- Source `_is_hidden_config_dir(loc)` (the Lean name drops the leading
underscore): some component of `loc.parts[:-1]` — i.e. every component
except the final one — other than the literal `.` and `..`, starts with a
dot and does not contain the config-marker name. -/
def is_hidden_config_dir (parts : List String) : Bool :=
  parts.dropLast.any (fun part =>
    part != "." && part != ".." && strStartsWith part "." &&
      !(strContains part DEFAULT_SGREP_CONFIG_NAME))

/-! ## YAML documents and the external loader -/

/-- Tree of scalars, sequences and mappings produced by `yaml.safe_load`. -/
inductive Yaml where
  | null
  | str (s : String)
  | seq (xs : List Yaml)
  | map (kvs : List (String × Yaml))

/-- Outcome of `yaml.safe_load(contents)`.  The source distinguishes
`yaml.parser.ParserError` and `yaml.scanner.ScannerError`; PyYAML's
loader can also fail with classes outside those two (for example
`yaml.composer.ComposerError` on an undefined alias such as `"*a"`),
which `otherError` models. -/
inductive YamlResult where
  | ok (doc : Yaml)
  | parserError (msg : String)
  | scannerError (msg : String)
  | otherError (msg : String)

/-- True when the loader outcome is one the source's `except` clauses
handle (success included); `otherError` is the uncaught case. -/
def YamlResult.caught : YamlResult → Bool
  | .otherError _ => false
  | _ => true

/-- Result of a pipeline step: normal return, process abort via
`print_error_exit` (`SystemExit`, which `except Exception` does not
catch), or an ordinary uncaught exception. -/
inductive Outcome (α : Type) where
  | ok (val : α)
  | fatal (msg : String)
  | exn (msg : String)

/-- A resolved config set: config id to parsed document, `none` being the
absence marker, in insertion order (a Python `dict`). -/
abbrev ConfigDict := List (String × Option Yaml)

/-- A step's value together with the error messages printed so far (the
`exn` path of `Outcome` discards messages already printed, which no claim
observes). -/
abbrev ScanResult := Outcome (ConfigDict × List String)

/-- Python `dict` assignment of one key: overwrite in place or append. -/
def updateOne (cfg : ConfigDict) (k : String) (v : Option Yaml) : ConfigDict :=
  if cfg.any (fun e => e.1 == k) then
    cfg.map (fun e => if e.1 == k then (k, v) else e)
  else cfg ++ [(k, v)]

/-- Python `dict.update`: fold the new entries into the accumulator. -/
def updateAll (cfg new : ConfigDict) : ConfigDict :=
  new.foldl (fun c e => updateOne c e.1 e.2) cfg

/-! ## Filesystem model

The filesystem is a finite table from paths (component lists, relative to
the working directory) to nodes; `other` stands for an object that exists
but is neither a regular file nor a directory (socket, device, ...). -/

/-- One filesystem object. -/
inductive FSKind where
  | file (content : String)
  | dir
  | other

/-- A finite filesystem: list of (path, node) rows; lookups take the
first matching row. -/
structure FS where
  entries : List (List String × FSKind)

/-- Node at a path, when present. -/
def FS.lookup (fs : FS) (p : List String) : Option FSKind :=
  (fs.entries.find? (fun e => e.1 == p)).map Prod.snd

/-- Python `Path.exists()`. -/
def FS.pathExists (fs : FS) (p : List String) : Bool :=
  (fs.lookup p).isSome

/-- Python `Path.is_file()`. -/
def FS.isFile (fs : FS) (p : List String) : Bool :=
  match fs.lookup p with
  | some (.file _) => true
  | _ => false

/-- Python `Path.is_dir()`. -/
def FS.isDir (fs : FS) (p : List String) : Bool :=
  match fs.lookup p with
  | some .dir => true
  | _ => false

/-- Recursive enumeration `root.rglob("*")`: pathlib's glob selector
guards the top level with an `is_dir` check, so a root that is missing or
not a directory yields an empty iteration; a directory yields every table
row strictly below `root`, in table order (order is unspecified by the
source). -/
def FS.rglobAll (fs : FS) (root : List String) : List (List String) :=
  match fs.lookup root with
  | some .dir =>
    (fs.entries.filter (fun e =>
      root.isPrefixOf e.1 && Nat.blt root.length e.1.length)).map Prod.fst
  | _ => []

/-- Python `Path.iterdir()`: the immediate children of `root`, in table
order. -/
def FS.iterdir (fs : FS) (root : List String) : List (List String) :=
  (fs.entries.filter (fun e =>
    root.isPrefixOf e.1 && e.1.length == root.length + 1)).map Prod.fst

/-! ## Document Parser -/

/-- Source `parse_config_string(config_id, contents)`, with the YAML
loader's outcome passed explicitly: success yields `{id: doc}`;
`ParserError` and `ScannerError` are logged (message naming the id, with
the diagnostic indented) and yield `{id: None}`; any other loader failure
propagates as an exception. -/
def parse_config_string (load : String → YamlResult) (config_id contents : String) :
    ScanResult :=
  match load contents with
  | .ok doc => .ok ([(config_id, some doc)], [])
  | .parserError m =>
      .ok ([(config_id, none)],
        ["Invalid yaml file " ++ config_id ++ ":\n" ++ indent m])
  | .scannerError m =>
      .ok ([(config_id, none)],
        ["Invalid yaml file " ++ config_id ++ ":\n" ++ indent m])
  | .otherError m => .exn m

/-- Source `parse_config_at_path(loc, base_path)`: the config id is
`str(loc)` with every occurrence of `str(base_path)` removed when a base
is supplied; a missing file is logged and yields `{str(loc): None}`;
opening a directory or special file raises. -/
def parse_config_at_path (load : String → YamlResult) (fs : FS)
    (loc : List String) (base : Option (List String)) : ScanResult :=
  let config_id :=
    match base with
    | some b => pyReplace (strOfPath loc) (strOfPath b) ""
    | none => strOfPath loc
  match fs.lookup loc with
  | some (.file contents) => parse_config_string load config_id contents
  | none =>
      .ok ([(strOfPath loc, none)],
        ["YAML file at " ++ strOfPath loc ++ " not found"])
  | some .dir => .exn ("IsADirectoryError: " ++ strOfPath loc)
  | some .other => .exn ("OSError: " ++ strOfPath loc)

/-- The source's per-entry filter in `parse_config_folder`:
`not _is_hidden_config_dir(l) and l.suffix in YML_EXTENSIONS`. -/
def eligiblePath (l : List String) : Bool :=
  !(is_hidden_config_dir l) && YML_EXTENSIONS.contains (pathSuffix l)

/-- Loop body of `parse_config_folder`: fold the matching entries,
merging each single-entry result; an exception aborts the fold. -/
def folderGo (load : String → YamlResult) (fs : FS) (loc : List String)
    (relative : Bool) :
    List (List String) → ConfigDict → List String → ScanResult
  | [], cfg, log => .ok (cfg, log)
  | l :: ls, cfg, log =>
    if eligiblePath l then
      match parse_config_at_path load fs l (if relative then some loc else none) with
      | .ok (d, lg) => folderGo load fs loc relative ls (updateAll cfg d) (log ++ lg)
      | .fatal m => .fatal m
      | .exn m => .exn m
    else folderGo load fs loc relative ls cfg log

/-- Source `parse_config_folder(loc, relative)`: fold the entries of
`loc.rglob("*")` — an empty iteration, hence the empty dict, when `loc`
is missing or not a directory. -/
def parse_config_folder (load : String → YamlResult) (fs : FS)
    (loc : List String) (relative : Bool) : ScanResult :=
  folderGo load fs loc relative (fs.rglobAll loc) [] []

/-! ## Specifier Resolver (local side) -/

/-- Source `load_config_from_local_path(location)`; the base path is
`Path(".")` (the empty component list), `location` the specifier already
split into components, `inDocker` the `IN_DOCKER` flag (it only shapes
the fatal message). -/
def load_config_from_local_path (load : String → YamlResult) (fs : FS)
    (location : Option (List String)) (inDocker : Bool) : ScanResult :=
  match location with
  | none =>
    let default_file := [DEFAULT_CONFIG_FILE]
    let default_folder := [DEFAULT_CONFIG_FOLDER]
    if fs.pathExists default_file then
      parse_config_at_path load fs default_file none
    else if fs.pathExists default_folder then
      parse_config_folder load fs default_folder true
    else
      .ok ([(strOfPath default_file, none)], [])
  | some locParts =>
    let loc := locParts
    if fs.pathExists loc then
      if fs.isFile loc then parse_config_at_path load fs loc none
      else if fs.isDir loc then parse_config_folder load fs loc false
      else .fatal ("config location `" ++ strOfPath loc ++ "` is not a file or folder!")
    else
      .fatal ("unable to find a config; path `" ++ strOfPath loc ++
        "` does not exist" ++
        (if inDocker then
          " (since you are running in docker, you cannot specify arbitary paths on the host; they must be mounted into the container)"
        else ""))

/-! ## Remote Fetcher -/

/-- A fetched HTTP response: status, declared content type, and the
UTF-8-decoded body used on the text path. -/
structure HttpResponse where
  status : Nat
  contentType : Option String
  body : String

/-- The source's `except Exception` handler around `download_config`'s
body: an ordinary exception is printed and degraded to `{url: None}`;
`SystemExit` from `print_error_exit` passes through. -/
def softenExn (url : String) : ScanResult → ScanResult
  | .exn m => .ok ([(url, none)], [m])
  | r => r

/-- Source `download_config(config_url)` after the GET returned `resp`.
On the gzip path, `fs` is the filesystem state after `tar.extractall`
into the scratch directory `scratch` (named `/tmp/` plus the base64 of
the URL in the source); the `for path in extracted.iterdir(): return ...`
uses only the first entry, and an empty iteration falls through to the
final `return {config_url: None}`. -/
def download_config (load : String → YamlResult) (fs : FS)
    (scratch : List String) (config_url : String) (resp : HttpResponse) :
    ScanResult :=
  if resp.status == HTTP_OK then
    match resp.contentType with
    | some ct =>
      if strContains ct "text/plain" then
        softenExn config_url (parse_config_string load "remote-url" resp.body)
      else if ct == "application/x-gzip" then
        match (fs.iterdir scratch).head? with
        | some firstEntry =>
            softenExn config_url (parse_config_folder load fs firstEntry true)
        | none => .ok ([(config_url, none)], [])
      else
        .fatal ("unknown content-type: " ++ ct ++ " returned by config url: " ++
          config_url ++ ". Can not parse")
    | none =>
      .fatal ("unknown content-type: None returned by config url: " ++
        config_url ++ ". Can not parse")
  else
    .fatal ("bad status code: " ++ toString resp.status ++
      " returned by config url: " ++ config_url)

/-! ## Docker/CI working-directory adjustment -/

/-- What `adjust_for_docker` did to the process. -/
inductive AdjustResult where
  | fatalMissingMount
  | chdirRepoHome
  | unchanged
deriving DecidableEq

/-- Source `adjust_for_docker(in_precommit)` as a function of the
`IN_DOCKER` and `IN_GH_ACTION` flags and of whether `REPO_HOME_DOCKER`
exists.  The source first aborts when containerized outside CI and
precommit with the mount point missing, and then — unconditionally —
changes directory whenever the mount point exists. -/
def adjust_for_docker (inDocker inGhAction inPrecommit repoHomeExists : Bool) :
    AdjustResult :=
  if inDocker && !inGhAction && !inPrecommit && !repoHomeExists then
    .fatalMissingMount
  else if repoHomeExists then .chdirRepoHome
  else .unchanged

/-! ## Specification-side views of the scan -/

/-- The config id `parse_config_at_path` computes for a discovered entry
`l` of a scan rooted at `loc`. -/
def scanId (loc : List String) (relative : Bool) (l : List String) : String :=
  if relative then pyReplace (strOfPath l) (strOfPath loc) "" else strOfPath l

/-- The single entry a scan contributes for a discovered path `l`:
its id, and the parsed document (absence marker on any loader failure). -/
def scanEntry (load : String → YamlResult) (fs : FS) (loc : List String)
    (relative : Bool) (l : List String) : String × Option Yaml :=
  (scanId loc relative l,
    match fs.lookup l with
    | some (.file c) =>
      match load c with
      | .ok d => some d
      | _ => none
    | _ => none)

/-- A discovered path that the per-file step handles without raising: a
regular file whose loader outcome is one of the caught classes. -/
def goodEntry (load : String → YamlResult) (fs : FS) (l : List String) : Bool :=
  match fs.lookup l with
  | some (.file c) => (load c).caught
  | _ => false

/-! ## Concrete fixtures for witnesses and counterexamples -/

/-- Loader that accepts every document as the null tree. -/
def loadNull : String → YamlResult := fun _ => .ok .null

/-- Loader standing for PyYAML on the input `"*a"`: the undefined alias
makes `safe_load` raise `yaml.composer.ComposerError`, a failure class
outside the two the source catches. -/
def loadComposer : String → YamlResult :=
  fun _ => .otherError "found undefined alias"

/-- Loader that fails with a caught parser error on everything. -/
def loadParserFail : String → YamlResult := fun _ => .parserError "oops"

/-- Loader accepting exactly the content `"good"`. -/
def loadGoodOnly : String → YamlResult :=
  fun s => if s == "good" then .ok .null else .parserError "bad"

/-- The empty filesystem. -/
def fsEmpty : FS := ⟨[]⟩

/-- A directory `root` containing a subdirectory named `a.yml`. -/
def fsDirWithYmlDir : FS :=
  ⟨[(["root"], FSKind.dir), (["root", "a.yml"], FSKind.dir)]⟩

/-- A directory `rules` containing `rules/rules/a.yml`: the scan root's
name reappears deeper in the discovered path. -/
def fsNestedRules : FS :=
  ⟨[(["rules"], FSKind.dir), (["rules", "rules"], FSKind.dir),
    (["rules", "rules", "a.yml"], FSKind.file "x")]⟩

/-- A directory `rt` with one well-formed rule file. -/
def fsOneGood : FS :=
  ⟨[(["rt"], FSKind.dir), (["rt", "a.yml"], FSKind.file "good")]⟩

/-- A directory `rules` with a well-formed `a.yml` and a malformed
`b.yml`. -/
def fsGoodBad : FS :=
  ⟨[(["rules"], FSKind.dir), (["rules", "a.yml"], FSKind.file "good"),
    (["rules", "b.yml"], FSKind.file "oops")]⟩

/-- A filesystem whose only object is neither a file nor a directory. -/
def fsOnlyOther : FS := ⟨[(["weird"], FSKind.other)]⟩

/-- An extraction scratch directory `tmp/X` that is empty: the archive
had no members. -/
def fsEmptyScratch : FS := ⟨[(["tmp", "X"], FSKind.dir)]⟩

/-- An extraction scratch directory whose first (and only) top-level
entry is a regular file, not a directory. -/
def fsFileScratch : FS :=
  ⟨[(["tmp", "X"], FSKind.dir), (["tmp", "X", "notes.yml"], FSKind.file "x")]⟩

/-- A successful response declaring `text/plain; charset=utf-8`. -/
def respTextUtf8 : HttpResponse :=
  ⟨HTTP_OK, some "text/plain; charset=utf-8", "rules: []"⟩

/-- A successful response declaring exactly `text/plain`. -/
def respTextExact : HttpResponse := ⟨HTTP_OK, some "text/plain", "rules: []"⟩

/-- A successful response declaring the gzip-archive media type. -/
def respGzip : HttpResponse := ⟨HTTP_OK, some "application/x-gzip", ""⟩

/-! ## Helper lemmas -/

theorem isPrefixOfCL_self_append (n post : List Char) :
    isPrefixOfCL n (n ++ post) = true := by
  induction n with
  | nil => rfl
  | cons a as ih => simp [isPrefixOfCL, ih]

theorem containsCL_nil_needle (h : List Char) : containsCL [] h = true := by
  cases h <;> simp [containsCL, isPrefixOfCL]

theorem containsCL_of_suffix (n pre rest : List Char)
    (h : containsCL n rest = true) : containsCL n (pre ++ rest) = true := by
  induction pre with
  | nil => simpa using h
  | cons c cs ih =>
    simp only [List.cons_append, containsCL, Bool.or_eq_true]
    exact Or.inr ih

theorem containsCL_self_append (n post : List Char) :
    containsCL n (n ++ post) = true := by
  cases n with
  | nil => exact containsCL_nil_needle post
  | cons c cs =>
    simp only [List.cons_append, containsCL, Bool.or_eq_true]
    exact Or.inl (by simpa using isPrefixOfCL_self_append (c :: cs) post)

theorem strContains_mid (pre mid post : String) :
    strContains (pre ++ mid ++ post) mid = true := by
  unfold strContains
  rw [String.data_append, String.data_append, List.append_assoc]
  exact containsCL_of_suffix _ _ _ (containsCL_self_append _ _)

theorem updateAll_nil (cfg : ConfigDict) : updateAll cfg [] = cfg := rfl

theorem updateAll_cons (cfg : ConfigDict) (e : String × Option Yaml)
    (rest : ConfigDict) :
    updateAll cfg (e :: rest) = updateAll (updateOne cfg e.1 e.2) rest := rfl

theorem updateOne_fresh (cfg : ConfigDict) (k : String) (v : Option Yaml)
    (h : cfg.any (fun e => e.1 == k) = false) :
    updateOne cfg k v = cfg ++ [(k, v)] := by
  simp [updateOne, h]

theorem updateAll_fresh (new : ConfigDict) : ∀ (cfg : ConfigDict),
    (∀ k ∈ new.map Prod.fst, cfg.any (fun e => e.1 == k) = false) →
    (new.map Prod.fst).Nodup →
    updateAll cfg new = cfg ++ new := by
  induction new with
  | nil => intro cfg _ _; simp [updateAll]
  | cons e rest ih =>
    intro cfg hfresh hnodup
    simp only [List.map_cons, List.nodup_cons] at hnodup
    have hk : cfg.any (fun x => x.1 == e.1) = false := hfresh e.1 (by simp)
    have hstep : updateAll cfg (e :: rest) = updateAll (cfg ++ [e]) rest := by
      rw [updateAll_cons, updateOne_fresh cfg e.1 e.2 hk]
    have hfresh2 : ∀ k ∈ rest.map Prod.fst,
        (cfg ++ [e]).any (fun x => x.1 == k) = false := by
      intro k hkmem
      have hne : (e.1 == k) = false := by
        rw [beq_eq_false_iff_ne]
        intro hEq
        exact hnodup.1 (hEq ▸ hkmem)
      rw [List.any_append]
      have h1 : cfg.any (fun x => x.1 == k) = false :=
        hfresh k (by simp only [List.map_cons]; exact List.mem_cons_of_mem _ hkmem)
      simp [h1, hne]
    rw [hstep, ih (cfg ++ [e]) hfresh2 hnodup.2]
    simp

theorem goodEntry_elim (load : String → YamlResult) (fs : FS) (l : List String)
    (hg : goodEntry load fs l = true) :
    ∃ c, fs.lookup l = some (FSKind.file c) ∧ (load c).caught = true := by
  unfold goodEntry at hg
  cases hfs : fs.lookup l with
  | none => rw [hfs] at hg; exact absurd hg (by simp)
  | some k =>
    cases k with
    | file c => rw [hfs] at hg; exact ⟨c, rfl, hg⟩
    | dir => rw [hfs] at hg; exact absurd hg (by simp)
    | other => rw [hfs] at hg; exact absurd hg (by simp)

theorem scanId_eq_base (loc l : List String) (relative : Bool) :
    (match (if relative then some loc else none : Option (List String)) with
     | some b => pyReplace (strOfPath l) (strOfPath b) ""
     | none => strOfPath l) = scanId loc relative l := by
  cases relative <;> simp [scanId]

theorem parse_config_at_path_good (load : String → YamlResult) (fs : FS)
    (l : List String) (base : Option (List String)) (c : String)
    (hc : fs.lookup l = some (FSKind.file c)) (hcaught : (load c).caught = true) :
    ∃ lg, parse_config_at_path load fs l base =
      .ok ([((match base with
              | some b => pyReplace (strOfPath l) (strOfPath b) ""
              | none => strOfPath l),
            (match load c with
             | .ok d => some d
             | _ => none))], lg) := by
  cases hload : load c with
  | ok d =>
    exact ⟨[], by simp [parse_config_at_path, hc, parse_config_string, hload]⟩
  | parserError m =>
    refine ⟨["Invalid yaml file " ++
      (match base with
       | some b => pyReplace (strOfPath l) (strOfPath b) ""
       | none => strOfPath l) ++ ":\n" ++ indent m], ?_⟩
    simp [parse_config_at_path, hc, parse_config_string, hload]
  | scannerError m =>
    refine ⟨["Invalid yaml file " ++
      (match base with
       | some b => pyReplace (strOfPath l) (strOfPath b) ""
       | none => strOfPath l) ++ ":\n" ++ indent m], ?_⟩
    simp [parse_config_at_path, hc, parse_config_string, hload]
  | otherError m =>
    rw [hload] at hcaught
    exact absurd hcaught (by simp [YamlResult.caught])

theorem scanEntry_of_file (load : String → YamlResult) (fs : FS)
    (loc : List String) (relative : Bool) (l : List String) (c : String)
    (hc : fs.lookup l = some (FSKind.file c)) :
    scanEntry load fs loc relative l =
      (scanId loc relative l,
        (match load c with
         | .ok d => some d
         | _ => none)) := by
  simp [scanEntry, hc]

theorem folderGo_spec (load : String → YamlResult) (fs : FS) (loc : List String)
    (relative : Bool) :
    ∀ (ls : List (List String)) (cfg : ConfigDict) (log : List String),
      (∀ l ∈ ls, eligiblePath l = true → goodEntry load fs l = true) →
      ∃ log2, folderGo load fs loc relative ls cfg log =
        .ok (updateAll cfg ((ls.filter eligiblePath).map
              (scanEntry load fs loc relative)), log2) := by
  intro ls
  induction ls with
  | nil =>
    intro cfg log _
    exact ⟨log, by simp [folderGo, updateAll]⟩
  | cons l ls ih =>
    intro cfg log hgood
    by_cases hel : eligiblePath l = true
    · have hg := hgood l (by simp) hel
      obtain ⟨c, hc, hcaught⟩ := goodEntry_elim load fs l hg
      obtain ⟨lg, hp⟩ := parse_config_at_path_good load fs l
        (if relative then some loc else none) c hc hcaught
      rw [scanId_eq_base loc l relative] at hp
      obtain ⟨log2, hrec⟩ := ih
        (updateAll cfg [(scanId loc relative l,
          (match load c with
           | .ok d => some d
           | _ => none))])
        (log ++ lg)
        (fun x hx => hgood x (List.mem_cons_of_mem _ hx))
      refine ⟨log2, ?_⟩
      have hcons : folderGo load fs loc relative (l :: ls) cfg log =
          folderGo load fs loc relative ls
            (updateAll cfg [(scanId loc relative l,
              (match load c with
               | .ok d => some d
               | _ => none))])
            (log ++ lg) := by
        simp only [folderGo, hel, if_true, hp]
      rw [hcons, hrec, List.filter_cons, if_pos hel, List.map_cons,
        scanEntry_of_file load fs loc relative l c hc, updateAll_cons]
      rfl
    · have hel2 : eligiblePath l = false := by
        cases h : eligiblePath l
        · rfl
        · exact absurd h hel
      obtain ⟨log2, hrec⟩ := ih cfg log
        (fun x hx => hgood x (List.mem_cons_of_mem _ hx))
      refine ⟨log2, ?_⟩
      have hcons : folderGo load fs loc relative (l :: ls) cfg log =
          folderGo load fs loc relative ls cfg log := by
        simp only [folderGo, hel2, Bool.false_eq_true, if_false]
      rw [hcons, hrec, List.filter_cons, if_neg (by simp [hel2])]

theorem parse_config_folder_spec (load : String → YamlResult) (fs : FS)
    (loc : List String) (relative : Bool)
    (hgood : ∀ l ∈ fs.rglobAll loc, eligiblePath l = true →
      goodEntry load fs l = true) :
    ∃ log, parse_config_folder load fs loc relative =
      .ok (updateAll [] (((fs.rglobAll loc).filter eligiblePath).map
            (scanEntry load fs loc relative)), log) := by
  obtain ⟨log2, h⟩ := folderGo_spec load fs loc relative (fs.rglobAll loc) [] [] hgood
  exact ⟨log2, h⟩

theorem scanEntry_fst (load : String → YamlResult) (fs : FS) (loc : List String)
    (relative : Bool) (l : List String) :
    (scanEntry load fs loc relative l).1 = scanId loc relative l := rfl

theorem parse_config_folder_spec_nodup (load : String → YamlResult) (fs : FS)
    (loc : List String) (relative : Bool)
    (hgood : ∀ l ∈ fs.rglobAll loc, eligiblePath l = true →
      goodEntry load fs l = true)
    (hnodup : (((fs.rglobAll loc).filter eligiblePath).map
      (scanId loc relative)).Nodup) :
    ∃ log, parse_config_folder load fs loc relative =
      .ok (((fs.rglobAll loc).filter eligiblePath).map
            (scanEntry load fs loc relative), log) := by
  obtain ⟨log, h⟩ := parse_config_folder_spec load fs loc relative hgood
  refine ⟨log, ?_⟩
  rw [h]
  congr 1
  have hkeys : (((fs.rglobAll loc).filter eligiblePath).map
      (scanEntry load fs loc relative)).map Prod.fst =
      ((fs.rglobAll loc).filter eligiblePath).map (scanId loc relative) := by
    rw [List.map_map]
    rfl
  rw [updateAll_fresh _ []
    (by intro k _; rfl)
    (by rw [hkeys]; exact hnodup)]
  simp

/-! ## Claim C1 -/

/-- C1: a path is excluded iff some directory component other than the
final filename (and other than `.` and `..`) starts with `.` and does not
contain the config-marker name; `proj/.github/rule.yml` is excluded,
`proj/.sgrep/rule.yml` and `proj/rules/.hidden.yml` are included, and the
leaf filename is never inspected. -/
theorem C1_hidden_dir_exclusion :
    (∀ parts : List String,
      is_hidden_config_dir parts = true ↔
        ∃ part, part ∈ parts.dropLast ∧ part ≠ "." ∧ part ≠ ".." ∧
          strStartsWith part "." = true ∧
          strContains part DEFAULT_SGREP_CONFIG_NAME = false)
    ∧ is_hidden_config_dir ["proj", ".github", "rule.yml"] = true
    ∧ is_hidden_config_dir ["proj", ".sgrep", "rule.yml"] = false
    ∧ is_hidden_config_dir ["proj", "rules", ".hidden.yml"] = false
    ∧ (∀ parts leafA leafB,
        is_hidden_config_dir (parts ++ [leafA]) =
          is_hidden_config_dir (parts ++ [leafB])) := by
  refine ⟨?_, by decide, by decide, by decide, ?_⟩
  · intro parts
    simp only [is_hidden_config_dir, List.any_eq_true, Bool.and_eq_true,
      bne_iff_ne, ne_eq, Bool.not_eq_true]
    constructor
    · rintro ⟨p, hp, ⟨⟨⟨h1, h2⟩, h3⟩, h4⟩⟩
      exact ⟨p, hp, h1, h2, h3, by simpa using h4⟩
    · rintro ⟨p, hp, h1, h2, h3, h4⟩
      exact ⟨p, hp, ⟨⟨⟨h1, h2⟩, h3⟩, by simpa using h4⟩⟩
  · intro parts leafA leafB
    simp [is_hidden_config_dir, List.dropLast_concat]

theorem strOfPath_singleton (s : String) : strOfPath [s] = s := rfl

/-! ## Claim C2 -/

/-- C2 counterexample: a successful response whose declared content-type
is `text/plain; charset=utf-8` — not exactly `text/plain` — is still
handed to the Document Parser as a single text document with id
`remote-url`, because the source tests `"text/plain" in content_type`
(substring), contradicting both the claimed exactness and the claimed
fatal outcome for other content types. -/
theorem C2_counterexample :
    download_config loadNull fsEmpty ["tmp"] "http://example.com/c" respTextUtf8 =
      Outcome.ok ([("remote-url", some Yaml.null)], [])
    ∧ respTextUtf8.contentType ≠ some "text/plain" :=
  ⟨rfl, by decide⟩

/-- C2 (amended): on a successful HTTP status, the body is handed to the
Document Parser with id `remote-url` iff the declared content-type
contains `text/plain` as a substring; the archive path is taken iff the
content-type is exactly `application/x-gzip`; every other declared
content-type (including a missing one) is fatal. -/
theorem C2_content_type_routing (load : String → YamlResult) (fs : FS)
    (scratch : List String) (url : String) (resp : HttpResponse)
    (hok : resp.status = HTTP_OK) :
    (∀ ct, resp.contentType = some ct → strContains ct "text/plain" = true →
      download_config load fs scratch url resp =
        softenExn url (parse_config_string load "remote-url" resp.body))
    ∧ (resp.contentType = some "application/x-gzip" →
      download_config load fs scratch url resp =
        (match (fs.iterdir scratch).head? with
         | some firstEntry =>
             softenExn url (parse_config_folder load fs firstEntry true)
         | none => Outcome.ok ([(url, none)], [])))
    ∧ (∀ ct, resp.contentType = some ct → strContains ct "text/plain" = false →
        ct ≠ "application/x-gzip" →
      download_config load fs scratch url resp =
        Outcome.fatal ("unknown content-type: " ++ ct ++
          " returned by config url: " ++ url ++ ". Can not parse"))
    ∧ (resp.contentType = none →
      download_config load fs scratch url resp =
        Outcome.fatal ("unknown content-type: None returned by config url: " ++
          url ++ ". Can not parse")) := by
  refine ⟨?_, ?_, ?_, ?_⟩
  · intro ct hct hcontains
    simp [download_config, hok, hct, hcontains]
  · intro hct
    have hnp : strContains "application/x-gzip" "text/plain" = false := by decide
    simp [download_config, hok, hct, hnp]
  · intro ct hct hcontains hne
    have hbeq : (ct == "application/x-gzip") = false := beq_eq_false_iff_ne.mpr hne
    simp [download_config, hok, hct, hcontains, hbeq]
  · intro hct
    simp [download_config, hok, hct]

/-- C2 witness: a response declaring exactly `text/plain` goes to the
Document Parser. -/
theorem C2_witness :
    respTextExact.status = HTTP_OK
    ∧ download_config loadNull fsEmpty ["tmp"] "u" respTextExact =
        softenExn "u" (parse_config_string loadNull "remote-url"
          respTextExact.body) :=
  ⟨rfl, (C2_content_type_routing loadNull fsEmpty ["tmp"] "u" respTextExact
    rfl).1 "text/plain" rfl (by decide)⟩

/-! ## Claim C3 -/

/-- C3: with an absent specifier, the default single file is probed
first, then the default folder (scanned with relative ids); when neither
exists the result is the non-fatal one-entry set mapping the default
file's path to the absence marker. -/
theorem C3_absent_specifier_probe (load : String → YamlResult) (fs : FS)
    (inDocker : Bool) :
    (fs.pathExists [DEFAULT_CONFIG_FILE] = true →
      load_config_from_local_path load fs none inDocker =
        parse_config_at_path load fs [DEFAULT_CONFIG_FILE] none)
    ∧ (fs.pathExists [DEFAULT_CONFIG_FILE] = false →
       fs.pathExists [DEFAULT_CONFIG_FOLDER] = true →
      load_config_from_local_path load fs none inDocker =
        parse_config_folder load fs [DEFAULT_CONFIG_FOLDER] true)
    ∧ (fs.pathExists [DEFAULT_CONFIG_FILE] = false →
       fs.pathExists [DEFAULT_CONFIG_FOLDER] = false →
      load_config_from_local_path load fs none inDocker =
        Outcome.ok ([(DEFAULT_CONFIG_FILE, none)], [])) := by
  refine ⟨?_, ?_, ?_⟩
  · intro h1
    simp [load_config_from_local_path, h1]
  · intro h1 h2
    simp [load_config_from_local_path, h1, h2]
  · intro h1 h2
    simp [load_config_from_local_path, h1, h2, strOfPath_singleton]

/-- C3 witness: on an empty filesystem neither default exists and the
probe returns the absence entry for the default file without aborting. -/
theorem C3_witness :
    FS.pathExists fsEmpty [DEFAULT_CONFIG_FILE] = false
    ∧ FS.pathExists fsEmpty [DEFAULT_CONFIG_FOLDER] = false
    ∧ load_config_from_local_path loadNull fsEmpty none false =
        Outcome.ok ([(DEFAULT_CONFIG_FILE, none)], []) :=
  ⟨rfl, rfl, (C3_absent_specifier_probe loadNull fsEmpty false).2.2 rfl rfl⟩

/-! ## Claim C4 -/

/-- C4 counterexample: a loader failure outside the two caught classes —
PyYAML raises `yaml.composer.ComposerError` for the input `"*a"`, whose
alias is undefined, and the source catches only `yaml.parser.ParserError`
and `yaml.scanner.ScannerError` — propagates out of the Document Parser
as an exception, contradicting "never propagates the parse failure ...
for any input text". -/
theorem C4_counterexample :
    parse_config_string loadComposer "remote-config" "*a" =
      Outcome.exn "found undefined alias" := rfl

/-- C4 (amended): on success the parser returns `{id: tree}`; on the two
caught syntax-error classes it logs one message containing the id and the
indented diagnostic and returns `{id: absent}`; a loader failure of any
other class propagates as an exception. -/
theorem C4_parse_string_contract (load : String → YamlResult)
    (config_id contents : String) :
    (∀ d, load contents = YamlResult.ok d →
      parse_config_string load config_id contents =
        Outcome.ok ([(config_id, some d)], []))
    ∧ (∀ m, load contents = YamlResult.parserError m →
      parse_config_string load config_id contents =
        Outcome.ok ([(config_id, none)],
          ["Invalid yaml file " ++ config_id ++ ":\n" ++ indent m])
      ∧ strContains ("Invalid yaml file " ++ config_id ++ ":\n" ++ indent m)
          config_id = true)
    ∧ (∀ m, load contents = YamlResult.scannerError m →
      parse_config_string load config_id contents =
        Outcome.ok ([(config_id, none)],
          ["Invalid yaml file " ++ config_id ++ ":\n" ++ indent m])
      ∧ strContains ("Invalid yaml file " ++ config_id ++ ":\n" ++ indent m)
          config_id = true)
    ∧ (∀ m, load contents = YamlResult.otherError m →
      parse_config_string load config_id contents = Outcome.exn m) := by
  have hmid : ∀ m : String,
      strContains ("Invalid yaml file " ++ config_id ++ ":\n" ++ indent m)
        config_id = true := by
    intro m
    have h := strContains_mid "Invalid yaml file " config_id
      (":\n" ++ indent m)
    rw [← String.append_assoc] at h
    exact h
  refine ⟨?_, ?_, ?_, ?_⟩
  · intro d h
    simp [parse_config_string, h]
  · intro m h
    exact ⟨by simp [parse_config_string, h], hmid m⟩
  · intro m h
    exact ⟨by simp [parse_config_string, h], hmid m⟩
  · intro m h
    simp [parse_config_string, h]

/-- C4 witness: a caught parser error on a concrete document is logged
with the id and yields the absence entry. -/
theorem C4_witness :
    loadParserFail "x" = YamlResult.parserError "oops"
    ∧ (parse_config_string loadParserFail "my.yml" "x" =
        Outcome.ok ([("my.yml", none)],
          ["Invalid yaml file " ++ "my.yml" ++ ":\n" ++ indent "oops"])
      ∧ strContains ("Invalid yaml file " ++ "my.yml" ++ ":\n" ++ indent "oops")
          "my.yml" = true) :=
  ⟨rfl, (C4_parse_string_contract loadParserFail "my.yml" "x").2.1 "oops" rfl⟩

/-! ## Claim C5 -/

/-- C5 counterexample: with a base path supplied, the missing-file branch
keys the absence entry by the full location `root/a.yml`, while the id it
would have used on success is the base-stripped `/a.yml` — the two
differ, contradicting "the same config id it would have used on
success". -/
theorem C5_counterexample :
    parse_config_at_path loadNull fsEmpty ["root", "a.yml"] (some ["root"]) =
      Outcome.ok ([("root/a.yml", none)], ["YAML file at root/a.yml not found"])
    ∧ pyReplace (strOfPath ["root", "a.yml"]) (strOfPath ["root"]) "" = "/a.yml"
    ∧ ("root/a.yml" : String) ≠ "/a.yml" :=
  ⟨rfl, rfl, by decide⟩

/-- C5 (amended): when the file is missing at the point of read, the
parse logs the error and returns a one-entry absence set keyed by the
full location path `str(loc)` — which coincides with the success id only
when base stripping leaves the path unchanged. -/
theorem C5_missing_file_key (load : String → YamlResult) (fs : FS)
    (loc : List String) (base : Option (List String))
    (h : fs.lookup loc = none) :
    parse_config_at_path load fs loc base =
      Outcome.ok ([(strOfPath loc, none)],
        ["YAML file at " ++ strOfPath loc ++ " not found"]) := by
  simp [parse_config_at_path, h]

/-- C5 witness: a concrete missing file under a base path yields the
absence entry keyed by the full path. -/
theorem C5_witness :
    FS.lookup fsEmpty ["nope.yml"] = none
    ∧ parse_config_at_path loadNull fsEmpty ["nope.yml"] (some ["base"]) =
        Outcome.ok ([(strOfPath ["nope.yml"], none)],
          ["YAML file at " ++ strOfPath ["nope.yml"] ++ " not found"]) :=
  ⟨rfl, C5_missing_file_key loadNull fsEmpty ["nope.yml"] (some ["base"]) rfl⟩

/-! ## Claim C6 -/

/-- C6 counterexample: scanning root `rules` with relative ids, the file
`rules/rules/a.yml` gets id `//a.yml` — `str.replace` removes *every*
occurrence of the root string, not only the leading one — whereas
stripping only the prefix would give `/rules/a.yml`. -/
theorem C6_counterexample :
    parse_config_folder loadNull fsNestedRules ["rules"] true =
      Outcome.ok ([("//a.yml", some Yaml.null)], [])
    ∧ ("//a.yml" : String) ≠ "/rules/a.yml" :=
  ⟨rfl, by decide⟩

/-- C6 (amended): with `relative = true` each config id equals the
discovered path with every occurrence of the scan-root string removed
(Python `str.replace` semantics, so later occurrences are removed too);
with `relative = false` each id is the full discovered path. -/
theorem C6_scan_ids (load : String → YamlResult) (fs : FS) (loc : List String)
    (hdir : fs.lookup loc = some FSKind.dir)
    (hgood : ∀ l ∈ fs.rglobAll loc, eligiblePath l = true →
      goodEntry load fs l = true)
    (hnodupRel : (((fs.rglobAll loc).filter eligiblePath).map
      (scanId loc true)).Nodup)
    (hnodupAbs : (((fs.rglobAll loc).filter eligiblePath).map
      (scanId loc false)).Nodup) :
    (∃ out log, parse_config_folder load fs loc true = Outcome.ok (out, log)
      ∧ out.map Prod.fst = ((fs.rglobAll loc).filter eligiblePath).map
          (fun l => pyReplace (strOfPath l) (strOfPath loc) ""))
    ∧ (∃ out log, parse_config_folder load fs loc false = Outcome.ok (out, log)
      ∧ out.map Prod.fst = ((fs.rglobAll loc).filter eligiblePath).map
          (fun l => strOfPath l)) := by
  constructor
  · obtain ⟨log, h⟩ :=
      parse_config_folder_spec_nodup load fs loc true hgood hnodupRel
    refine ⟨_, log, h, ?_⟩
    rw [List.map_map]
    apply List.map_congr_left
    intro l _
    rfl
  · obtain ⟨log, h⟩ :=
      parse_config_folder_spec_nodup load fs loc false hgood hnodupAbs
    refine ⟨_, log, h, ?_⟩
    rw [List.map_map]
    apply List.map_congr_left
    intro l _
    rfl

/-- C6 witness: a concrete one-file scan, whose relative id is the
replace-all rendition of the discovered path. -/
theorem C6_witness :
    (∀ l ∈ FS.rglobAll fsOneGood ["rt"], eligiblePath l = true →
      goodEntry loadNull fsOneGood l = true)
    ∧ (∃ out log, parse_config_folder loadNull fsOneGood ["rt"] true =
        Outcome.ok (out, log)
      ∧ out.map Prod.fst =
          [pyReplace (strOfPath ["rt", "a.yml"]) (strOfPath ["rt"]) ""]) := by
  refine ⟨by decide, ?_⟩
  exact (C6_scan_ids loadNull fsOneGood ["rt"] rfl (by decide) (by decide)
    (by decide)).1

/-! ## Claim C7 -/

/-- C7 counterexample: a gzip response whose extracted archive is empty
is not fatal — the `for` over `iterdir` never runs, control falls through
to the final `return {config_url: None}`, a soft absence entry. -/
theorem C7_counterexample :
    download_config loadNull fsEmptyScratch ["tmp", "X"] "u" respGzip =
      Outcome.ok ([("u", none)], [])
    ∧ (∀ m, (Outcome.ok ([("u", none)], []) : ScanResult) ≠ Outcome.fatal m) :=
  ⟨rfl, fun _ h => Outcome.noConfusion h⟩

theorem rglobAll_of_not_dir (fs : FS) (p : List String)
    (h : fs.isDir p = false) : fs.rglobAll p = [] := by
  unfold FS.isDir at h
  unfold FS.rglobAll
  cases hl : fs.lookup p with
  | none => rfl
  | some k =>
    cases k with
    | file c => rfl
    | dir => rw [hl] at h; simp at h
    | other => rfl

/-- C7 (amended): after a gzip fetch, an empty extracted archive yields
the soft absence set `{url: None}` — the `for` over `iterdir` never runs
and control falls through to the final soft return — and a first
top-level entry that is not a directory yields the empty set, because its
recursive glob iterates over nothing; neither condition aborts, nothing
is logged. -/
theorem C7_archive_soft_paths (load : String → YamlResult) (fs : FS)
    (scratch : List String) (url : String) (resp : HttpResponse)
    (hok : resp.status = HTTP_OK)
    (hct : resp.contentType = some "application/x-gzip") :
    (fs.iterdir scratch = [] →
      download_config load fs scratch url resp = Outcome.ok ([(url, none)], []))
    ∧ (∀ p ps, fs.iterdir scratch = p :: ps → fs.isDir p = false →
      download_config load fs scratch url resp = Outcome.ok ([], [])) := by
  have hnp : strContains "application/x-gzip" "text/plain" = false := by decide
  constructor
  · intro hempty
    simp [download_config, hok, hct, hnp, hempty]
  · intro p ps hiter hnotdir
    have hglob : fs.rglobAll p = [] := rglobAll_of_not_dir fs p hnotdir
    simp [download_config, hok, hct, hnp, hiter, parse_config_folder, hglob,
      folderGo, softenExn]

/-- C7 witness: a scratch directory whose only top-level entry is a
regular file produces the empty result set, with no fatal abort and
nothing logged. -/
theorem C7_witness :
    FS.iterdir fsFileScratch ["tmp", "X"] = [["tmp", "X", "notes.yml"]]
    ∧ FS.isDir fsFileScratch ["tmp", "X", "notes.yml"] = false
    ∧ download_config loadNull fsFileScratch ["tmp", "X"] "u2" respGzip =
        Outcome.ok ([], []) :=
  ⟨rfl, rfl,
    (C7_archive_soft_paths loadNull fsFileScratch ["tmp", "X"] "u2" respGzip
      rfl rfl).2 ["tmp", "X", "notes.yml"] [] rfl rfl⟩

/-! ## Claim C8 -/

/-- C8: an explicit local path that does not exist, or that exists but is
neither a regular file nor a directory, terminates resolution with a
fatal outcome (process exit), returning no result set at all. -/
theorem C8_explicit_path_fatal (load : String → YamlResult) (fs : FS)
    (loc : List String) (inDocker : Bool) :
    (fs.pathExists loc = false →
      ∃ m, load_config_from_local_path load fs (some loc) inDocker =
        Outcome.fatal m)
    ∧ (fs.lookup loc = some FSKind.other →
      ∃ m, load_config_from_local_path load fs (some loc) inDocker =
        Outcome.fatal m) := by
  constructor
  · intro h
    refine ⟨"unable to find a config; path `" ++ strOfPath loc ++
      "` does not exist" ++
      (if inDocker then
        " (since you are running in docker, you cannot specify arbitary paths on the host; they must be mounted into the container)"
      else ""), ?_⟩
    simp [load_config_from_local_path, h]
  · intro h
    have hex : fs.pathExists loc = true := by simp [FS.pathExists, h]
    have hf : fs.isFile loc = false := by simp [FS.isFile, h]
    have hd : fs.isDir loc = false := by simp [FS.isDir, h]
    refine ⟨"config location `" ++ strOfPath loc ++ "` is not a file or folder!",
      ?_⟩
    simp [load_config_from_local_path, hex, hf, hd]

/-- C8 witness: a missing path and a special-file path both abort
fatally. -/
theorem C8_witness :
    (∃ m, load_config_from_local_path loadNull fsEmpty
      (some ["does", "not", "exist"]) false = Outcome.fatal m)
    ∧ (∃ m, load_config_from_local_path loadNull fsOnlyOther (some ["weird"])
        false = Outcome.fatal m) :=
  ⟨(C8_explicit_path_fatal loadNull fsEmpty ["does", "not", "exist"] false).1 rfl,
   (C8_explicit_path_fatal loadNull fsOnlyOther ["weird"] false).2 rfl⟩

/-! ## Claim C9 -/

/-- C9 counterexample: a directory entry named `a.yml` passes the
suffix-only eligibility test — the source never checks `is_file()` — so
the Document Parser step is invoked on a directory; opening it raises an
error outside the caught classes and the whole scan aborts,
contradicting both "invoked only on regular files" and "the scan of the
whole directory never aborts". -/
theorem C9_counterexample :
    parse_config_folder loadNull fsDirWithYmlDir ["root"] false =
      Outcome.exn "IsADirectoryError: root/a.yml" := rfl

/-- C9 (amended): the parser step is invoked on every non-hidden entry
with a recognized extension regardless of its kind; provided each such
entry is a regular file whose loader outcome is of a caught class (and
the computed ids are distinct), the scan never aborts and yields exactly
one entry per eligible file — a parse failure becomes that file's absence
entry while the rest are parsed. -/
theorem C9_scan_error_isolation (load : String → YamlResult) (fs : FS)
    (loc : List String) (relative : Bool)
    (hdir : fs.lookup loc = some FSKind.dir)
    (hgood : ∀ l ∈ fs.rglobAll loc, eligiblePath l = true →
      goodEntry load fs l = true)
    (hnodup : (((fs.rglobAll loc).filter eligiblePath).map
      (scanId loc relative)).Nodup) :
    ∃ log, parse_config_folder load fs loc relative =
      Outcome.ok (((fs.rglobAll loc).filter eligiblePath).map
        (scanEntry load fs loc relative), log) :=
  parse_config_folder_spec_nodup load fs loc relative hgood hnodup

/-- C9 witness: a directory with one valid and one malformed rule file
yields exactly two entries — the malformed one as an absence marker — and
no abort. -/
theorem C9_witness :
    (∀ l ∈ FS.rglobAll fsGoodBad ["rules"], eligiblePath l = true →
      goodEntry loadGoodOnly fsGoodBad l = true)
    ∧ ∃ log, parse_config_folder loadGoodOnly fsGoodBad ["rules"] false =
        Outcome.ok ([("rules/a.yml", some Yaml.null), ("rules/b.yml", none)],
          log) := by
  refine ⟨by decide, ?_⟩
  exact C9_scan_error_isolation loadGoodOnly fsGoodBad ["rules"] false rfl
    (by decide) (by decide)

/-! ## Claim C10 -/

/-- C10 counterexample: with the containerized flag off (and CI and
precommit off) but the mount point present, the source still changes the
working directory — the `chdir` is outside the flag guard — contradicting
"in every other combination ... the working directory is left
unchanged". -/
theorem C10_counterexample :
    adjust_for_docker false false false true = AdjustResult.chdirRepoHome
    ∧ AdjustResult.chdirRepoHome ≠ AdjustResult.unchanged :=
  ⟨rfl, by decide⟩

/-- C10 (amended): the working directory changes to the mount point iff
the mount point exists; the flag combination (containerized, not CI, not
precommit) only decides whether a missing mount point is fatal; otherwise
nothing happens. -/
theorem C10_adjust_characterization :
    ∀ inDocker inGhAction inPrecommit repoHomeExists : Bool,
      (adjust_for_docker inDocker inGhAction inPrecommit repoHomeExists =
          AdjustResult.chdirRepoHome ↔ repoHomeExists = true)
      ∧ (adjust_for_docker inDocker inGhAction inPrecommit repoHomeExists =
          AdjustResult.fatalMissingMount ↔
          (inDocker = true ∧ inGhAction = false ∧ inPrecommit = false ∧
            repoHomeExists = false))
      ∧ (adjust_for_docker inDocker inGhAction inPrecommit repoHomeExists =
          AdjustResult.unchanged ↔
          (repoHomeExists = false ∧
            ¬(inDocker = true ∧ inGhAction = false ∧ inPrecommit = false))) := by
  decide

end Sgrep
